import Mathlib

/-!
Verification of the rebase-mint token extension
(`src/token/program-2022/src/extension/rebase_mint/`).

Shallow embedding notes.

* The Rust code performs its ratio arithmetic in `f64`.  Here that arithmetic
  is embedded as exact rational arithmetic (`ℚ`) together with
  round-half-away-from-zero (`f64::round`'s rule) and the saturating `as u16`
  / `as u64` casts.  Every concrete evaluation below happens at inputs where
  `f64` computes the same values exactly; universal statements either depend
  only on branch and cast structure (which is identical under `f64`) or are
  scoped by `float64Exact` hypotheses to the inputs on which the binary64
  evaluation is exact, so that they are statements about the program and not
  about an easier idealization.
* The draft source is internally inconsistent: `mod.rs` declares
  `total_supply`/`total_shares` as `i16` and no rounding-error field, while
  the unit tests in the same file store `u64` values in those fields and
  `processor.rs` stores `u16` values and reads/writes a field
  `accumulated_rounding_error`.  The conversion engine is therefore embedded
  over `RebaseMintConfig` (the `mod.rs` declaration, integer fields) and the
  processor over `RebaseMintState` (the field layout `processor.rs` requires:
  `u16` quantities plus `accumulated_rounding_error`), with the declared
  `i16` width captured by `configFieldRange`.
* In the `ℚ` model a division by zero yields `0` (Lean's convention) where
  `f64` would yield `inf`/`NaN`; no claim settled here depends on that corner
  except through saturating casts, which send both to `0`.
-/

namespace RebaseMint

/-- Public keys are abstracted as natural numbers; `OptionalNonZeroPubkey`
(all-zero bytes meaning "absent") is embedded as `Option Pubkey`. -/
abbrev Pubkey := Nat

/-- Rust `f64::round`: round half away from zero.  For `0 ≤ q` this is
`⌊q + 1/2⌋`; for `q < 0` it is `-⌊1/2 - q⌋`. -/
def roundHalfAway (q : ℚ) : ℤ :=
  if 0 ≤ q then ⌊q + 1 / 2⌋ else -⌊1 / 2 - q⌋

/-- Rust float-to-integer cast `as u16`: saturating (negative and `NaN` go to
`0`, values above `u16::MAX` go to `u16::MAX`). -/
def u16Sat (n : ℤ) : ℕ :=
  if n < 0 then 0 else min n.toNat (2 ^ 16 - 1)

/-- Rust float-to-integer cast `as u64`: saturating. -/
def u64Sat (n : ℤ) : ℕ :=
  if n < 0 then 0 else min n.toNat (2 ^ 64 - 1)

/-- Rust float-to-`u64` cast for a value that is not an integer: truncation
toward zero, saturating at the ends.  Used for `amount as u64` in
`try_ui_amount_into_shares`. -/
def ratTruncToU64 (q : ℚ) : ℕ :=
  if q < 0 then 0 else min ⌊q⌋.toNat (2 ^ 64 - 1)

/-- A rational number exactly representable as a finite IEEE-754 binary64
value: `m * 2 ^ e` with a 53-bit significand and the binary64 exponent range.
On operands and results in this set every IEEE arithmetic operation (being
correctly rounded) returns the exact value, so the `f64` evaluation of the
source coincides with the exact rational evaluation of this file.  Used to
delimit the domain of the universal round-trip bound (claim C6). -/
def float64Exact (q : ℚ) : Prop :=
  ∃ m e : ℤ, q = (m : ℚ) * (2 : ℚ) ^ e ∧ m.natAbs < 2 ^ 53 ∧
    -1074 ≤ e ∧ e ≤ 971

/-- Extension data for mints (`RebaseMintConfig` in `mod.rs`).  The source
declares `total_supply` and `total_shares` with Rust type `i16`; the fields
are embedded as unbounded integers and the declared width is captured by
`configFieldRange`.  (The same file's unit tests store `u64` values in these
fields and the processor stores `u16` values — the draft is inconsistent.) -/
structure RebaseMintConfig where
  total_supply : Int
  total_shares : Int
  supply_authority : Option Pubkey
deriving DecidableEq

/-- Values storable in the declared `total_supply` / `total_shares` fields of
`RebaseMintConfig`: the range of Rust `i16` as declared in `mod.rs`. -/
def configFieldRange (n : ℤ) : Prop :=
  -(2 ^ 15) ≤ n ∧ n < 2 ^ 15

instance (n : ℤ) : Decidable (configFieldRange n) := by
  unfold configFieldRange
  infer_instance

/-- `RebaseMintConfig::amount_to_shares` (`mod.rs` lines 41-50): if
`total_supply == 0` return `amount` unchanged, else return
`(amount as f64 * (total_shares as f64 / total_supply as f64)).round() as u64`.
The `f64` arithmetic is embedded exactly over `ℚ`, which drops the binary64
roundings of `amount as f64`, of the ratio division and of the product; a
universal claim over this definition is therefore a claim about the program
only on inputs where those values are exactly representable
(`float64Exact`) — claims outside that domain use this definition only at
concrete inputs where `f64` computes these exact values. -/
def amount_to_shares (c : RebaseMintConfig) (amount : ℕ) : ℕ :=
  if c.total_supply = 0 then amount
  else
    u64Sat (roundHalfAway ((amount : ℚ) * ((c.total_shares : ℚ) / (c.total_supply : ℚ))))

/-- `RebaseMintConfig::shares_to_amount` (`mod.rs` lines 59-68): if
`total_shares == 0` return `shares` unchanged, else return
`(shares as f64 * (total_supply as f64 / total_shares as f64)).round() as u64`.
The same exact-rational embedding of the `f64` arithmetic as in
`amount_to_shares` applies, with the same `float64Exact` scoping for
universal claims. -/
def shares_to_amount (c : RebaseMintConfig) (shares : ℕ) : ℕ :=
  if c.total_shares = 0 then shares
  else
    u64Sat (roundHalfAway ((shares : ℚ) * ((c.total_supply : ℚ) / (c.total_shares : ℚ))))

/-- Decimal rendering of `amount as f64 / 10f64.powi(decimals)` under Rust's
fixed-precision format `\x7b:.*\x7d` with `decimals` fractional digits
(`mod.rs` lines 83-84): for `decimals = 0` just the integer, otherwise the
integer part, a point, and the fractional part zero-padded to exactly
`decimals` digits.  Exact for amounts whose quotient by `10 ^ decimals` is
exactly representable, which covers every evaluation in this file. -/
def uiAmountString (amount : ℕ) (decimals : ℕ) : String :=
  if decimals = 0 then toString amount
  else
    let fs := toString (amount % 10 ^ decimals)
    toString (amount / 10 ^ decimals) ++ "." ++
      String.mk (List.replicate (decimals - fs.length) '0') ++ fs

/-- `RebaseMintConfig::shares_to_ui_amount` (`mod.rs` lines 78-85): convert
shares to a raw amount, divide by `10 ^ decimals` and format with exactly
`decimals` fractional digits; always `Some`. -/
def shares_to_ui_amount (c : RebaseMintConfig) (shares : ℕ) (decimals : ℕ) :
    Option String :=
  some (uiAmountString (shares_to_amount c shares) decimals)

/-- Program-level error of the conversion engine (`ProgramError`). -/
inductive ProgramError where
  | InvalidArgument
deriving DecidableEq

/-- Checks that every character of a nonempty list is a decimal digit and
returns its value. -/
def digitsVal (cs : List Char) : Option ℕ :=
  if cs = [] then none
  else if cs.all Char.isDigit then
    some (cs.foldl (fun a c => a * 10 + (c.toNat - 48)) 0)
  else none

/-- Digits of an unsigned decimal body, split at the first point: the integer
part, and (when a point is present) the fractional part, which must not hold a
further point.  Sign handling is done by `parseDecimal`. -/
def parseBody (body : List Char) (sign : ℚ) : Option ℚ :=
  let ip := body.takeWhile fun c => !(c = '.')
  match body.dropWhile (fun c => !(c = '.')) with
  | [] => (digitsVal ip).map fun n => sign * (n : ℚ)
  | _ :: fp =>
    if fp.contains '.' then none
    else if ip = [] ∧ fp = [] then none
    else
      match (if ip = [] then some 0 else digitsVal ip),
          (if fp = [] then some 0 else digitsVal fp) with
      | some i, some f =>
        some (sign * ((i : ℚ) + (f : ℚ) / (10 : ℚ) ^ fp.length))
      | _, _ => none

/-- Modelled from the spec: `str::parse::<f64>` (a standard-library
collaborator outside `src/`), which the spec describes as "parses `text` as a
decimal number; fails with an argument error if unparseable".  The model
accepts an optional sign followed by plain decimal notation (digits with an
optional point, at least one digit overall) and yields the exact rational
value; exponent, infinity and NaN spellings are outside the grammar exercised
by the claims and are rejected. -/
def parseDecimal (s : String) : Option ℚ :=
  match s.data with
  | [] => none
  | c :: rest =>
    if c = '-' then parseBody rest (-1)
    else if c = '+' then parseBody rest 1
    else parseBody (c :: rest) 1

/-- `RebaseMintConfig::try_ui_amount_into_shares` (`mod.rs` lines 95-109):
parse the string (argument error if unparseable), scale by `10 ^ decimals`,
reject values above `u64::MAX as f64` (which rounds to `2 ^ 64`) or below
zero, then cast to `u64` and convert with `amount_to_shares`. -/
def try_ui_amount_into_shares (c : RebaseMintConfig) (ui_amount : String)
    (decimals : ℕ) : Except ProgramError ℕ :=
  match parseDecimal ui_amount with
  | none => Except.error ProgramError.InvalidArgument
  | some scaled_amount =>
    let amount : ℚ := scaled_amount * (10 : ℚ) ^ decimals
    if (2 ^ 64 : ℚ) < amount ∨ amount < 0 then
      Except.error ProgramError.InvalidArgument
    else
      Except.ok (amount_to_shares c (ratTruncToU64 amount))

/-- Errors raised by the instruction processor (`TokenError` variants used in
`processor.rs`, plus the layout error of a doubly-initialized region). -/
inductive TokenError where
  | NoAuthorityExists
  | OwnerMismatch
  | InvalidSupply
  | AlreadyInUse
deriving DecidableEq

/-- Authority errors: the spec's taxonomy class (b) — no authority configured
on the extension, or the signer set does not satisfy the configured
authority. -/
def isAuthorityError : TokenError → Bool
  | TokenError.NoAuthorityExists => true
  | TokenError.OwnerMismatch => true
  | _ => false

/-- The extension state as the processor manipulates it (`processor.rs`):
`u16` quantities `total_supply`, `total_shares`, `accumulated_rounding_error`
(the spec's `rounding_error_carry`) and the optional `supply_authority`.
Fields are `ℕ`; every store the code performs keeps them below `2 ^ 16`. -/
structure RebaseMintState where
  total_supply : Nat
  total_shares : Nat
  supply_authority : Option Pubkey
  accumulated_rounding_error : Nat
deriving DecidableEq

/-- `process_initialize` (`processor.rs` lines 23-39).  The typed-region
accessor (`unpack_uninitialized` / `init_extension`) is an external
collaborator; modelled from the spec: "fails if the extension region already
holds data", and a fresh region is zeroed (the struct derives `Zeroable` /
`Default`).  The source then assigns `total_supply`, `supply_authority` and
`accumulated_rounding_error` — and never assigns `total_shares`, which
therefore keeps its zeroed value. -/
def process_init (region : Option RebaseMintState) (supply_authority : Option Pubkey)
    (initial_supply : ℕ) : Except TokenError RebaseMintState :=
  match region with
  | some _ => Except.error TokenError.AlreadyInUse
  | none =>
    let ext0 : RebaseMintState := ⟨0, 0, none, 0⟩
    let ext1 : RebaseMintState :=
      ⟨initial_supply, ext0.total_shares, ext0.supply_authority,
        ext0.accumulated_rounding_error⟩
    let ext2 : RebaseMintState :=
      ⟨ext1.total_supply, ext1.total_shares, supply_authority,
        ext1.accumulated_rounding_error⟩
    Except.ok
      ⟨ext2.total_supply, ext2.total_shares, ext2.supply_authority, 0⟩

/-- Step 1-2 of the rebase arithmetic (`processor.rs` lines 68-69):
`new_supply as f64 / total_supply as f64`, then `total_shares` times it; the
adjusted value also adds the banked carry over the fixed-point scale 10000
(lines 72-73). -/
def rebaseAdjusted (s : RebaseMintState) (new_supply : ℕ) : ℚ :=
  (s.total_shares : ℚ) * ((new_supply : ℚ) / (s.total_supply : ℚ)) +
    (s.accumulated_rounding_error : ℚ) / 10000

/-- `adjusted_total_shares.round() as u16` (`processor.rs` line 74). -/
def rebaseRounded (s : RebaseMintState) (new_supply : ℕ) : ℕ :=
  u16Sat (roundHalfAway (rebaseAdjusted s new_supply))

/-- `new_error = adjusted_total_shares - rounded_total_shares as f64`
(`processor.rs` line 77). -/
def rebaseResidual (s : RebaseMintState) (new_supply : ℕ) : ℚ :=
  rebaseAdjusted s new_supply - (rebaseRounded s new_supply : ℚ)

/-- `(new_error * 10_000.0).round() as u16` (`processor.rs` line 78): the
scaled residual, saturated into `u16`. -/
def rebaseScaled (s : RebaseMintState) (new_supply : ℕ) : ℕ :=
  u16Sat (roundHalfAway (rebaseResidual s new_supply * 10000))

/-- `potential_new_accumulated_error` (`processor.rs` line 81): the carry and
the scaled residual summed as `u32`; the sum of two `u16`-ranged values never
reaches `2 ^ 32`, so the `ℕ` sum is exact. -/
def rebasePotential (s : RebaseMintState) (new_supply : ℕ) : ℕ :=
  s.accumulated_rounding_error + rebaseScaled s new_supply

/-- `process_rebase_supply` (`processor.rs` lines 41-100).  `owner_valid`
abstracts the external collaborator `Processor::validate_owner` (single or
multisig signer-set validation, out of scope per the spec), `false` meaning
the signer set does not satisfy `supply_authority`.  The assignments are
modelled in source order; note that lines 96-97 assign `total_shares` and
`total_supply` after the carry-distribution block, overwriting the
`saturating_add` store of line 87. -/
def process_rebase_supply (s : RebaseMintState) (owner_valid : Bool)
    (new_supply : ℕ) : Except TokenError RebaseMintState :=
  match s.supply_authority with
  | none => Except.error TokenError.NoAuthorityExists
  | some _ =>
    if owner_valid then
      if new_supply = 0 then Except.error TokenError.InvalidSupply
      else
        let rounded := rebaseRounded s new_supply
        let potential := rebasePotential s new_supply
        let stateMid : RebaseMintState :=
          if 10000 ≤ potential then
            let sharesDist :=
              min (s.total_shares + potential / 10000 % 2 ^ 16) (2 ^ 16 - 1)
            ⟨s.total_supply, sharesDist, s.supply_authority,
              potential % 10000 % 2 ^ 16⟩
          else
            ⟨s.total_supply, s.total_shares, s.supply_authority,
              potential % 2 ^ 16⟩
        Except.ok
          ⟨new_supply, rounded, stateMid.supply_authority,
            stateMid.accumulated_rounding_error⟩
    else Except.error TokenError.OwnerMismatch

/-- The state persisted after one RebaseSupply invocation: on success the new
state, on failure the unchanged input (a rejected ledger instruction has no
effect). -/
def runRebase (s : RebaseMintState) (owner_valid : Bool) (new_supply : ℕ) :
    RebaseMintState :=
  match process_rebase_supply s owner_valid new_supply with
  | Except.ok s' => s'
  | Except.error _ => s

/-- A sequence of RebaseSupply invocations, each required to succeed;
`none` if any step fails. -/
def runSeq (s : RebaseMintState) : List (Bool × ℕ) → Option RebaseMintState
  | [] => some s
  | (b, ns) :: rest =>
    match process_rebase_supply s b ns with
    | Except.ok s' => runSeq s' rest
    | Except.error _ => none

instance exceptDecEq {e a : Type} [DecidableEq e] [DecidableEq a] :
    DecidableEq (Except e a) := fun x y =>
  match x, y with
  | Except.ok v, Except.ok w =>
    if h : v = w then isTrue (by rw [h])
    else isFalse (by intro hc; cases hc; exact h rfl)
  | Except.error v, Except.error w =>
    if h : v = w then isTrue (by rw [h])
    else isFalse (by intro hc; cases hc; exact h rfl)
  | Except.ok _, Except.error _ => isFalse (by intro hc; cases hc)
  | Except.error _, Except.ok _ => isFalse (by intro hc; cases hc)

/-- Rounding half away from zero never goes below zero on nonnegative
input. -/
theorem roundHalfAway_nonneg {q : ℚ} (h : 0 ≤ q) : 0 ≤ roundHalfAway q := by
  rw [roundHalfAway, if_pos h]
  exact Int.floor_nonneg.mpr (by linarith)

/-- Upper half-unit bound of the rounding. -/
theorem roundHalfAway_le_add_half {q : ℚ} (h : 0 ≤ q) :
    (roundHalfAway q : ℚ) ≤ q + 1 / 2 := by
  rw [roundHalfAway, if_pos h]
  exact Int.floor_le _

/-- Lower half-unit bound of the rounding. -/
theorem sub_half_lt_roundHalfAway {q : ℚ} (h : 0 ≤ q) :
    q - 1 / 2 < (roundHalfAway q : ℚ) := by
  rw [roundHalfAway, if_pos h]
  have := Int.sub_one_lt_floor (q + 1 / 2)
  push_cast at this ⊢
  linarith

/-- The rounding of a value at most `B` (with `B` nonnegative) is at most
`B`. -/
theorem roundHalfAway_le_int {q : ℚ} {B : ℤ} (hB : 0 ≤ B) (hq : q ≤ (B : ℚ)) :
    roundHalfAway q ≤ B := by
  by_cases h0 : 0 ≤ q
  · rw [roundHalfAway, if_pos h0]
    have : ⌊q + 1 / 2⌋ < B + 1 := Int.floor_lt.mpr (by push_cast; linarith)
    omega
  · rw [roundHalfAway, if_neg h0]
    have : 0 ≤ ⌊1 / 2 - q⌋ := Int.floor_nonneg.mpr (by linarith [lt_of_not_le h0])
    omega

/-- The `as u64` cast is the identity on in-range nonnegative integers. -/
theorem u64Sat_eq_toNat {n : ℤ} (h0 : 0 ≤ n) (hB : n ≤ 2 ^ 64 - 1) :
    u64Sat n = n.toNat := by
  rw [u64Sat, if_neg (not_lt.mpr h0)]
  exact min_eq_left (by omega)

/-- The `as u16` cast never exceeds `u16::MAX`. -/
theorem u16Sat_le (n : ℤ) : u16Sat n ≤ 2 ^ 16 - 1 := by
  rw [u16Sat]
  by_cases h : n < 0
  · rw [if_pos h]
    exact Nat.zero_le _
  · rw [if_neg h]
    exact min_le_right _ _

/-- The `as u16` cast respects any nonnegative integer upper bound. -/
theorem u16Sat_le_nat {n : ℤ} {B : ℕ} (h : n ≤ (B : ℤ)) : u16Sat n ≤ B := by
  rw [u16Sat]
  by_cases h0 : n < 0
  · rw [if_pos h0]
    exact Nat.zero_le _
  · rw [if_neg h0]
    exact le_trans (min_le_left _ _) (by omega)

/-- Every successful rebase step leaves the carry strictly below the
fixed-point scale: both branches of the carry-distribution block store either
`potential % 10000` or a value already checked to be below `10000`. -/
theorem rebase_ok_carry_lt {s s' : RebaseMintState} {b : Bool} {ns : ℕ}
    (h : process_rebase_supply s b ns = Except.ok s') :
    s'.accumulated_rounding_error < 10000 := by
  cases hA : s.supply_authority with
  | none => simp [process_rebase_supply, hA] at h
  | some a =>
    simp only [process_rebase_supply, hA] at h
    by_cases hb : b = true
    · rw [if_pos hb] at h
      by_cases hz : ns = 0
      · rw [if_pos hz] at h
        cases h
      · rw [if_neg hz] at h
        by_cases hp : 10000 ≤ rebasePotential s ns
        · simp only [hp, if_true] at h
          cases h
          simp only []
          omega
        · simp only [hp, if_false] at h
          cases h
          simp only []
          omega
    · rw [if_neg hb] at h
      cases h

/-- Claim C4: authority validation precedes any mutation — whenever no rebase
authority is configured or the signer set does not satisfy it, RebaseSupply
fails with an authority error (`NoAuthorityExists` or `OwnerMismatch`) and the
persisted state is the unchanged input state. -/
theorem c4_authority_before_mutation (s : RebaseMintState) (owner_valid : Bool)
    (ns : ℕ) (h : s.supply_authority = none ∨ owner_valid = false) :
    (∃ e, process_rebase_supply s owner_valid ns = Except.error e ∧
      isAuthorityError e = true) ∧
    runRebase s owner_valid ns = s := by
  have hstep : ∃ e, process_rebase_supply s owner_valid ns = Except.error e ∧
      isAuthorityError e = true := by
    cases hA : s.supply_authority with
    | none =>
      exact ⟨TokenError.NoAuthorityExists,
        by simp [process_rebase_supply, hA, isAuthorityError]⟩
    | some a =>
      rcases h with h | h
      · rw [hA] at h
        cases h
      · subst h
        exact ⟨TokenError.OwnerMismatch,
          by simp [process_rebase_supply, hA, isAuthorityError]⟩
  refine ⟨hstep, ?_⟩
  obtain ⟨e, he, _⟩ := hstep
  simp [runRebase, he]

/-- Claim C4 witness: a state with no configured authority is rejected with an
authority error and persists unchanged. -/
theorem c4_authority_before_mutation_witness :
    (∃ e, process_rebase_supply ⟨5, 5, none, 0⟩ true 3 = Except.error e ∧
      isAuthorityError e = true) ∧
    runRebase ⟨5, 5, none, 0⟩ true 3 = ⟨5, 5, none, 0⟩ :=
  c4_authority_before_mutation ⟨5, 5, none, 0⟩ true 3 (Or.inl rfl)

/-- Claim C5: a RebaseSupply with `new_supply = 0` under a valid authority
fails with `InvalidSupply` and the persisted state is the unchanged input
state. -/
theorem c5_zero_supply_rejected (s : RebaseMintState) (a : Pubkey)
    (hA : s.supply_authority = some a) :
    process_rebase_supply s true 0 = Except.error TokenError.InvalidSupply ∧
    runRebase s true 0 = s := by
  have hstep : process_rebase_supply s true 0 =
      Except.error TokenError.InvalidSupply := by
    simp [process_rebase_supply, hA]
  exact ⟨hstep, by simp [runRebase, hstep]⟩

/-- Claim C5 witness: concrete zero-supply rejection. -/
theorem c5_zero_supply_rejected_witness :
    process_rebase_supply ⟨5, 5, some 2, 0⟩ true 0 =
      Except.error TokenError.InvalidSupply ∧
    runRebase ⟨5, 5, some 2, 0⟩ true 0 = ⟨5, 5, some 2, 0⟩ :=
  c5_zero_supply_rejected ⟨5, 5, some 2, 0⟩ 2 rfl

/-- Claim C3: after any nonempty sequence of successful RebaseSupply
operations the carry satisfies `0 ≤ accumulated_rounding_error < 10000` (the
lower bound holds by the `ℕ` type); every prefix of a successful sequence is
itself a successful sequence, so the bound holds after each operation. -/
theorem c3_carry_invariant (s : RebaseMintState) (inputs : List (Bool × ℕ))
    (s' : RebaseMintState) (hne : inputs ≠ [])
    (h : runSeq s inputs = some s') :
    s'.accumulated_rounding_error < 10000 := by
  induction inputs generalizing s with
  | nil => exact absurd rfl hne
  | cons head tail ih =>
    obtain ⟨b, ns⟩ := head
    rw [runSeq] at h
    cases hstep : process_rebase_supply s b ns with
    | error e =>
      rw [hstep] at h
      cases h
    | ok s1 =>
      rw [hstep] at h
      cases tail with
      | nil =>
        simp only [runSeq, Option.some.injEq] at h
        cases h
        exact rebase_ok_carry_lt hstep
      | cons head2 tail2 =>
        exact ih s1 (by simp) h

/-- Claim C3 witness: one successful rebase from a freshly initialized state
keeps the carry below 10000. -/
theorem c3_carry_invariant_witness :
    (⟨2, 2, some 3, 0⟩ : RebaseMintState).accumulated_rounding_error < 10000 :=
  c3_carry_invariant ⟨1, 1, some 3, 0⟩ [(true, 2)] ⟨2, 2, some 3, 0⟩
    (by simp)
    (by
      have h1 : process_rebase_supply ⟨1, 1, some 3, 0⟩ true 2 =
          Except.ok ⟨2, 2, some 3, 0⟩ := by
        norm_num [process_rebase_supply, rebasePotential, rebaseScaled,
          rebaseResidual, rebaseRounded, rebaseAdjusted, u16Sat, roundHalfAway]
        all_goals (simp <;> norm_num)
      rw [runSeq, h1]
      rfl)

/-- Claim C7: when `total_supply` is zero, `amount_to_shares` is the identity,
and when `total_shares` is zero, `shares_to_amount` is the identity (the 1:1
bootstrap guards of the conversion engine). -/
theorem c7_zero_guard_identity (c : RebaseMintConfig) (x : ℕ) :
    (c.total_supply = 0 → amount_to_shares c x = x) ∧
    (c.total_shares = 0 → shares_to_amount c x = x) := by
  constructor
  · intro h
    simp [amount_to_shares, h]
  · intro h
    simp [shares_to_amount, h]

/-- Claim C7 witness: both identities at a concrete all-zero state. -/
theorem c7_zero_guard_identity_witness :
    amount_to_shares ⟨0, 0, none⟩ 7 = 7 ∧ shares_to_amount ⟨0, 0, none⟩ 7 = 7 :=
  ⟨(c7_zero_guard_identity ⟨0, 0, none⟩ 7).1 rfl,
    (c7_zero_guard_identity ⟨0, 0, none⟩ 7).2 rfl⟩

/-- Claim C1 divergence: `process_initialize` succeeds on an empty region and
stores `total_supply`, `supply_authority` and a zero carry, but never assigns
`total_shares`, which keeps its zeroed value `0` instead of the claimed
`initial_supply` (here `5`); re-initialization of an occupied region fails.
The 1:1 bootstrap the spec describes (and which the conversion engine's
zero-guards presuppose) is therefore not established. -/
theorem c1_initialize_divergence :
    process_init none (some 7) 5 = Except.ok ⟨5, 0, some 7, 0⟩ ∧
    process_init none (some 7) 5 ≠ Except.ok ⟨5, 5, some 7, 0⟩ ∧
    process_init (some ⟨5, 0, some 7, 0⟩) (some 7) 5 =
      Except.error TokenError.AlreadyInUse := by
  refine ⟨rfl, ?_, rfl⟩
  decide

/-- Claim C2 divergence: at state `(total_supply, total_shares, carry) =
(2, 1, 9000)` with `new_supply = 1`, the rounded share total is `1` and the
combined carry is `13000 ≥ 10000`, so the claim requires final
`total_shares = 1 + 13000 / 10000 = 2`; the code's unconditional assignment
`total_shares = rounded_total_shares` after the distribution block discards
the distributed share and leaves `total_shares = 1` (carry `3000` as
claimed). -/
theorem c2_rebase_distribution_divergence :
    process_rebase_supply ⟨2, 1, some 7, 9000⟩ true 1 =
      Except.ok ⟨1, 1, some 7, 3000⟩ ∧
    rebaseRounded ⟨2, 1, some 7, 9000⟩ 1 = 1 ∧
    rebasePotential ⟨2, 1, some 7, 9000⟩ 1 = 13000 := by
  refine ⟨?_, ?_, ?_⟩
  · norm_num [process_rebase_supply, rebasePotential, rebaseScaled,
      rebaseResidual, rebaseRounded, rebaseAdjusted, u16Sat, roundHalfAway]
    all_goals simp
  · norm_num [rebaseRounded, rebaseAdjusted, u16Sat, roundHalfAway]
  · norm_num [rebasePotential, rebaseScaled, rebaseResidual, rebaseRounded,
      rebaseAdjusted, u16Sat, roundHalfAway]
    all_goals simp

/-- Claim C8 divergence: the declared field type of
`RebaseMintConfig.total_supply` / `total_shares` is `i16`, whose range
excludes large unsigned 64-bit values (such as `2 ^ 63`) and includes
negative values (such as `-1`), contradicting the claimed unsigned 64-bit
width. -/
theorem c8_field_width_divergence :
    ¬ configFieldRange (2 ^ 63) ∧ configFieldRange (-1) ∧
      (2 ^ 63 : ℤ) ≤ 2 ^ 64 - 1 := by
  refine ⟨?_, ?_, by norm_num⟩
  · intro h
    rcases h with ⟨_, h2⟩
    norm_num at h2
  · constructor <;> norm_num

/-- Claim C9: at the test state `total_supply = 1000`, `total_shares = 500`,
the conversion engine gives `amount_to_shares 500 = 250`,
`shares_to_amount 250 = 500`, `amount_to_shares 0 = 0`, renders 250 shares at
2 decimals as the two-fractional-digit string `"5.00"`, parses `"5"` at 2
decimals back to 250 shares, and rejects `"invalid"` with an argument
error. -/
theorem c9_concrete_conversions :
    amount_to_shares ⟨1000, 500, none⟩ 500 = 250 ∧
    shares_to_amount ⟨1000, 500, none⟩ 250 = 500 ∧
    amount_to_shares ⟨1000, 500, none⟩ 0 = 0 ∧
    shares_to_ui_amount ⟨1000, 500, none⟩ 250 2 = some "5.00" ∧
    try_ui_amount_into_shares ⟨1000, 500, none⟩ "5" 2 = Except.ok 250 ∧
    try_ui_amount_into_shares ⟨1000, 500, none⟩ "invalid" 2 =
      Except.error ProgramError.InvalidArgument := by
  refine ⟨?_, ?_, ?_, ?_, ?_, ?_⟩
  · norm_num [amount_to_shares, u64Sat, roundHalfAway]
    all_goals simp
  · norm_num [shares_to_amount, u64Sat, roundHalfAway]
    all_goals simp
  · norm_num [amount_to_shares, u64Sat, roundHalfAway]
  · have hs : shares_to_amount ⟨1000, 500, none⟩ 250 = 500 := by
      norm_num [shares_to_amount, u64Sat, roundHalfAway]
      all_goals simp
    rw [shares_to_ui_amount, hs]
    decide
  · have hp : parseDecimal "5" = some 5 := by
      simp [parseDecimal, parseBody, digitsVal]
    rw [try_ui_amount_into_shares, hp]
    norm_num [ratTruncToU64, amount_to_shares, u64Sat, roundHalfAway]
    all_goals (simp <;> norm_num)
    all_goals decide
  · decide

/-- The adjusted share value is nonnegative: every operand is a cast of an
unsigned field. -/
theorem rebaseAdjusted_nonneg (s : RebaseMintState) (ns : ℕ) :
    0 ≤ rebaseAdjusted s ns := by
  rw [rebaseAdjusted]
  positivity

/-- Claim C10 counterexample: at state `(total_supply, total_shares, carry) =
(1, 3, 0)` with `new_supply = 30000` the rebase succeeds, but the adjusted
value `90000` saturates the `u16` cast of the rounded share total, making the
residual `24465` and its scaled, saturated value `65535 > 5000` — the claimed
`5000` cap on the residual fails when the rounded total saturates. -/
theorem c10_saturation_counterexample :
    process_rebase_supply ⟨1, 3, some 7, 0⟩ true 30000 =
      Except.ok ⟨30000, 65535, some 7, 5535⟩ ∧
    rebaseScaled ⟨1, 3, some 7, 0⟩ 30000 = 65535 ∧
    ¬ rebaseScaled ⟨1, 3, some 7, 0⟩ 30000 ≤ 5000 := by
  have hsc : rebaseScaled ⟨1, 3, some 7, 0⟩ 30000 = 65535 := by
    norm_num [rebaseScaled, rebaseResidual, rebaseRounded, rebaseAdjusted,
      u16Sat, roundHalfAway]
  refine ⟨?_, hsc, ?_⟩
  · norm_num [process_rebase_supply, rebasePotential, rebaseScaled,
      rebaseResidual, rebaseRounded, rebaseAdjusted, u16Sat, roundHalfAway]
  · rw [hsc]
    norm_num

/-- Claim C10 amended: the scaled residual is always nonnegative (it is a
`ℕ`) and at most `u16::MAX`, so for a `u16`-ranged carry the 32-bit
accumulator sum stays below `2 ^ 32`; the claimed `5000` cap holds exactly
when the rounded share total does not saturate its `u16` cast (negative
residuals are saturated to zero, nonnegative ones are below half a share). -/
theorem c10_residual_bounds (s : RebaseMintState) (ns : ℕ)
    (hc : s.accumulated_rounding_error < 2 ^ 16) :
    rebaseScaled s ns ≤ 2 ^ 16 - 1 ∧
    rebasePotential s ns < 2 ^ 32 ∧
    (roundHalfAway (rebaseAdjusted s ns) ≤ 2 ^ 16 - 1 →
      rebaseScaled s ns ≤ 5000) := by
  have h1 : rebaseScaled s ns ≤ 2 ^ 16 - 1 := u16Sat_le _
  refine ⟨h1, ?_, ?_⟩
  · rw [rebasePotential]
    omega
  · intro hr
    have hadj : 0 ≤ rebaseAdjusted s ns := rebaseAdjusted_nonneg s ns
    have hr0 : 0 ≤ roundHalfAway (rebaseAdjusted s ns) :=
      roundHalfAway_nonneg hadj
    have hrounded : rebaseRounded s ns =
        (roundHalfAway (rebaseAdjusted s ns)).toNat := by
      rw [rebaseRounded, u16Sat, if_neg (not_lt.mpr hr0)]
      exact min_eq_left (by omega)
    have hcast : ((rebaseRounded s ns : ℕ) : ℚ) =
        ((roundHalfAway (rebaseAdjusted s ns) : ℤ) : ℚ) := by
      rw [hrounded]
      exact_mod_cast Int.toNat_of_nonneg hr0
    have hres_hi : rebaseResidual s ns < 1 / 2 := by
      rw [rebaseResidual, hcast]
      have := sub_half_lt_roundHalfAway hadj
      linarith
    apply u16Sat_le_nat
    apply roundHalfAway_le_int (by norm_num)
    push_cast
    linarith

/-- Claim C10 amended witness: concrete bounds at an unsaturated rebase. -/
theorem c10_residual_bounds_witness :
    rebaseScaled ⟨1000, 500, some 7, 0⟩ 2000 ≤ 2 ^ 16 - 1 ∧
    rebasePotential ⟨1000, 500, some 7, 0⟩ 2000 < 2 ^ 32 ∧
    (roundHalfAway (rebaseAdjusted ⟨1000, 500, some 7, 0⟩ 2000) ≤ 2 ^ 16 - 1 →
      rebaseScaled ⟨1000, 500, some 7, 0⟩ 2000 ≤ 5000) :=
  c10_residual_bounds ⟨1000, 500, some 7, 0⟩ 2000 (by norm_num)

/-- Claim C6 counterexample: with `total_supply = 1000 > 0` and
`total_shares = 1`, the amount `499` converts to `0` shares and back to `0`,
a round-trip error of `499` units — far above the claimed single unit. -/
theorem c6_roundtrip_counterexample :
    (0 : ℤ) < (RebaseMintConfig.mk 1000 1 none).total_supply ∧
    shares_to_amount (RebaseMintConfig.mk 1000 1 none)
      (amount_to_shares (RebaseMintConfig.mk 1000 1 none) 499) = 0 ∧
    ¬ (((shares_to_amount (RebaseMintConfig.mk 1000 1 none)
        (amount_to_shares (RebaseMintConfig.mk 1000 1 none) 499) : ℤ) -
          (499 : ℤ)).natAbs ≤ 1) := by
  have hmid : shares_to_amount (RebaseMintConfig.mk 1000 1 none)
      (amount_to_shares (RebaseMintConfig.mk 1000 1 none) 499) = 0 := by
    norm_num [shares_to_amount, amount_to_shares, u64Sat, roundHalfAway]
  refine ⟨by norm_num, hmid, ?_⟩
  rw [hmid]
  decide

/-- Claim C6 amended: the one-unit round-trip bound holds whenever the share
rate is at least one (`total_supply ≤ total_shares`, so converting back
shrinks the half-unit rounding error), the forward conversion does not
saturate the `u64` cast, and the binary64 evaluation of the source is exact:
the amount, both ratios and both products are exactly representable
(`float64Exact`).  On that domain every IEEE operation the source performs
returns its exact value (each rounded result is an integer that is already
representable, since an exactly representable value at magnitude `2 ^ 53` or
above is an integer), so the rational evaluation below is the program's
evaluation.  The exactness hypotheses delimit that domain; the rational
bound itself needs only the first three hypotheses. -/
theorem c6_roundtrip (c : RebaseMintConfig) (a : ℕ)
    (hT : 0 < c.total_supply) (hTS : c.total_supply ≤ c.total_shares)
    (hbound : (a : ℚ) * ((c.total_shares : ℚ) / (c.total_supply : ℚ)) ≤
      2 ^ 64 - 1)
    (hxa : float64Exact (a : ℚ))
    (hxr1 : float64Exact ((c.total_shares : ℚ) / (c.total_supply : ℚ)))
    (hxp1 : float64Exact
      ((a : ℚ) * ((c.total_shares : ℚ) / (c.total_supply : ℚ))))
    (hxr2 : float64Exact ((c.total_supply : ℚ) / (c.total_shares : ℚ)))
    (hxp2 : float64Exact ((amount_to_shares c a : ℚ) *
      ((c.total_supply : ℚ) / (c.total_shares : ℚ)))) :
    ((shares_to_amount c (amount_to_shares c a) : ℤ) - (a : ℤ)).natAbs ≤ 1 := by
  have hS : 0 < c.total_shares := lt_of_lt_of_le hT hTS
  have hTne : ¬ c.total_supply = 0 := by omega
  have hSne : ¬ c.total_shares = 0 := by omega
  set t : ℚ := (c.total_supply : ℚ) with ht_def
  set sq : ℚ := (c.total_shares : ℚ) with hs_def
  have ht : 0 < t := by
    rw [ht_def]
    exact_mod_cast hT
  have hs : 0 < sq := by
    rw [hs_def]
    exact_mod_cast hS
  have hts : t ≤ sq := by
    rw [ht_def, hs_def]
    exact_mod_cast hTS
  have hratio0 : 0 < t / sq := div_pos ht hs
  have hratio1 : t / sq ≤ 1 := (div_le_one hs).mpr hts
  set q : ℚ := (a : ℚ) * (sq / t) with hq_def
  have hq0 : 0 ≤ q := by positivity
  set m : ℤ := roundHalfAway q with hm_def
  have hm0 : 0 ≤ m := roundHalfAway_nonneg hq0
  have hmB : m ≤ 2 ^ 64 - 1 := by
    apply roundHalfAway_le_int (by norm_num)
    push_cast
    linarith [hbound]
  have hfwd : amount_to_shares c a = m.toNat := by
    rw [amount_to_shares, if_neg hTne]
    exact u64Sat_eq_toNat hm0 hmB
  have hmcast : ((m.toNat : ℕ) : ℚ) = (m : ℚ) := by
    exact_mod_cast Int.toNat_of_nonneg hm0
  set q2 : ℚ := (m : ℚ) * (t / sq) with hq2_def
  have hq20 : 0 ≤ q2 := by
    rw [hq2_def]
    exact mul_nonneg (by exact_mod_cast hm0) hratio0.le
  have hq2m : q2 ≤ (m : ℚ) := by
    rw [hq2_def]
    calc (m : ℚ) * (t / sq) ≤ (m : ℚ) * 1 :=
      mul_le_mul_of_nonneg_left hratio1 (by exact_mod_cast hm0)
    _ = (m : ℚ) := mul_one _
  set m2 : ℤ := roundHalfAway q2 with hm2_def
  have hm20 : 0 ≤ m2 := roundHalfAway_nonneg hq20
  have hm2B : m2 ≤ 2 ^ 64 - 1 := by
    apply roundHalfAway_le_int (by norm_num)
    have hmq : (m : ℚ) ≤ 2 ^ 64 - 1 := by exact_mod_cast hmB
    push_cast
    linarith [hq2m]
  have hback : shares_to_amount c (amount_to_shares c a) = m2.toNat := by
    rw [hfwd, shares_to_amount, if_neg hSne, hmcast]
    exact u64Sat_eq_toNat hm20 hm2B
  have hA1 : (m : ℚ) ≤ q + 1 / 2 := roundHalfAway_le_add_half hq0
  have hA2 : q - 1 / 2 < (m : ℚ) := sub_half_lt_roundHalfAway hq0
  have hB1 : (m2 : ℚ) ≤ q2 + 1 / 2 := roundHalfAway_le_add_half hq20
  have hB2 : q2 - 1 / 2 < (m2 : ℚ) := sub_half_lt_roundHalfAway hq20
  have hkey : q * (t / sq) = (a : ℚ) := by
    rw [hq_def]
    field_simp
  have hdiff : q2 - (a : ℚ) = ((m : ℚ) - q) * (t / sq) := by
    rw [hq2_def, ← hkey]
    ring
  have hup : q2 - (a : ℚ) ≤ 1 / 2 := by
    rw [hdiff]
    have h1 : (m : ℚ) - q ≤ 1 / 2 := by linarith
    calc ((m : ℚ) - q) * (t / sq) ≤ (1 / 2) * (t / sq) :=
      mul_le_mul_of_nonneg_right h1 hratio0.le
    _ ≤ 1 / 2 := by linarith [hratio1]
  have hlo : -(1 / 2 : ℚ) < q2 - (a : ℚ) := by
    rw [hdiff]
    have h1 : -(1 / 2 : ℚ) < (m : ℚ) - q := by linarith
    have h2 : (-(1 / 2 : ℚ)) * (t / sq) < ((m : ℚ) - q) * (t / sq) :=
      mul_lt_mul_of_pos_right h1 hratio0
    have h3 : (1 / 2 : ℚ) * (t / sq) ≤ (1 / 2) * 1 :=
      mul_le_mul_of_nonneg_left hratio1 (by norm_num)
    linarith
  have hfin1 : (a : ℚ) - 1 < (m2 : ℚ) := by linarith
  have hfin2 : (m2 : ℚ) ≤ (a : ℚ) + 1 := by linarith
  have hz1 : (a : ℤ) - 1 < m2 := by exact_mod_cast hfin1
  have hz2 : m2 ≤ (a : ℤ) + 1 := by exact_mod_cast hfin2
  rw [hback]
  omega

/-- Claim C6 amended witness: exact round trip at rate 2, with the amount,
both ratios and both products exactly representable in binary64. -/
theorem c6_roundtrip_witness :
    ((shares_to_amount ⟨2, 4, none⟩ (amount_to_shares ⟨2, 4, none⟩ 3) : ℤ) -
      (3 : ℤ)).natAbs ≤ 1 := by
  have h6 : amount_to_shares ⟨2, 4, none⟩ 3 = 6 := by
    norm_num [amount_to_shares, u64Sat, roundHalfAway]
    all_goals simp
  exact c6_roundtrip ⟨2, 4, none⟩ 3 (by norm_num) (by norm_num) (by norm_num)
    ⟨3, 0, by norm_num, by decide, by decide, by decide⟩
    ⟨2, 0, by norm_num, by decide, by decide, by decide⟩
    ⟨6, 0, by norm_num, by decide, by decide, by decide⟩
    ⟨1, -1, by norm_num, by decide, by decide, by decide⟩
    ⟨3, 0, by rw [h6]; norm_num, by decide, by decide, by decide⟩

end RebaseMint
